import Mathlib

/-!
Verification of the training-orchestration logic of `run_vqa.py` (CKDH).

The file shallowly embeds the pieces of the program that the specification
talks about:

* the gradient-accumulation / optimizer-step decision inside the training
  loop (`microBatch`, from the `if (step + 1) % args.gradient_accumulation_steps == 0`
  block),
* the evolution of the `global_step` counter (`globalStepAfter`),
* the loss rescaling before `backward` (`backwardLoss`),
* the loss function `instance_bce_with_logits`,
* the metric `compute_score_with_logits`,
* the evaluation loop `evaluate`,
* the learning-rate lambda `lr_lambda_update` (with Python's `bisect`),
* the startup sequence of `main` as a name-resolution pipeline (`runMain`),
  used to settle the configuration-check and `NameError` claims.

Real numbers in the program are modelled by `ℚ`; the transcendental part of
the binary-cross-entropy element loss (`log1p ∘ exp`) is kept as an explicit
function parameter, so every statement about the loss holds for any choice
of that function.
-/

/-- Effects of one micro-batch iteration of the training loop
(`run_vqa.py`, lines 459–473).  `fp16` is `args.fp16`, `K` is
`args.gradient_accumulation_steps`, `step` is the zero-based index of the
micro-batch produced by `enumerate(train_dataloader)`. -/
structure StepEffects where
  lrSet : Bool
  gradClip : Bool
  optimizerStep : Bool
  zeroGrad : Bool
  globalStepInc : Bool
  deriving Repr, DecidableEq

/-- The body of `for step, batch in enumerate(train_dataloader)` restricted
to its control effects: everything inside
`if (step + 1) % args.gradient_accumulation_steps == 0:` happens exactly
when that test holds, and the learning-rate overwrite additionally sits
under `if args.fp16:`. -/
def microBatch (fp16 : Bool) (K : ℕ) (step : ℕ) : StepEffects :=
  if (step + 1) % K == 0 then
    { lrSet := fp16
      gradClip := true
      optimizerStep := true
      zeroGrad := true
      globalStepInc := true }
  else
    { lrSet := false
      gradClip := false
      optimizerStep := false
      zeroGrad := false
      globalStepInc := false }

/-- Number of micro-batches among `[0, N)` on which the optimizer step
fires. -/
def fireCount (fp16 : Bool) (K N : ℕ) : ℕ :=
  (List.range N).countP (fun i => (microBatch fp16 K i).optimizerStep)

theorem microBatch_optimizerStep (fp16 : Bool) (K i : ℕ) :
    (microBatch fp16 K i).optimizerStep = ((i + 1) % K == 0) := by
  unfold microBatch
  by_cases h : (i + 1) % K == 0 <;> simp [h]

theorem countP_range_succ_mod (K N : ℕ) :
    (List.range N).countP (fun i => (i + 1) % K == 0) = N / K := by
  induction N with
  | zero => simp
  | succ n ih =>
    rw [List.range_succ, List.countP_append, ih, List.countP_cons]
    simp only [List.countP_nil, Nat.zero_add]
    by_cases hd : K ∣ n + 1
    · have h0 : (n + 1) % K = 0 := Nat.mod_eq_zero_of_dvd hd
      simp [Nat.succ_div, hd, h0]
    · have h0 : (n + 1) % K ≠ 0 := fun hc => hd (Nat.dvd_of_mod_eq_zero hc)
      simp [Nat.succ_div, hd, h0]

/-- C1: for every accumulation factor `K ≥ 1`, the optimizer step fires on
exactly the micro-batches whose zero-based index `i` satisfies
`(i + 1) % K = 0`; over `N` micro-batches it fires exactly `⌊N / K⌋` times,
and for `K = 1` it fires on every micro-batch. -/
theorem fire_pattern_and_count (fp16 : Bool) (K N : ℕ) (hK : 1 ≤ K) :
    (∀ i, (microBatch fp16 K i).optimizerStep = true ↔ (i + 1) % K = 0)
      ∧ fireCount fp16 K N = N / K
      ∧ (K = 1 → ∀ i, (microBatch fp16 K i).optimizerStep = true) := by
  refine ⟨?_, ?_, ?_⟩
  · intro i
    rw [microBatch_optimizerStep]
    simp
  · unfold fireCount
    calc (List.range N).countP (fun i => (microBatch fp16 K i).optimizerStep)
        = (List.range N).countP (fun i => (i + 1) % K == 0) := by
          apply List.countP_congr
          intro i _
          rw [microBatch_optimizerStep]
      _ = N / K := countP_range_succ_mod K N
  · intro hK1 i
    rw [microBatch_optimizerStep, hK1]
    simp [Nat.mod_one]

theorem fire_pattern_and_count_witness :
    1 ≤ 3
      ∧ ((∀ i, (microBatch false 3 i).optimizerStep = true ↔ (i + 1) % 3 = 0)
          ∧ fireCount false 3 7 = 7 / 3
          ∧ (3 = 1 → ∀ i, (microBatch false 3 i).optimizerStep = true)) :=
  ⟨by decide, fire_pattern_and_count false 3 7 (by decide)⟩

/-- `global_step` after processing micro-batches `0, …, N-1` of one epoch,
starting from `g0` (`run_vqa.py` lines 410 and 473: `global_step = 0`
before the epoch loop, `global_step += 1` inside the fire branch only). -/
def globalStepAfter (fp16 : Bool) (K : ℕ) (g0 N : ℕ) : ℕ :=
  (List.range N).foldl
    (fun g i => if (microBatch fp16 K i).globalStepInc then g + 1 else g) g0

theorem globalStepAfter_eq_add_count (fp16 : Bool) (K g0 N : ℕ) :
    globalStepAfter fp16 K g0 N =
      g0 + (List.range N).countP (fun i => (microBatch fp16 K i).globalStepInc) := by
  unfold globalStepAfter
  induction N with
  | zero => simp
  | succ n ih =>
    rw [List.range_succ, List.foldl_append, List.countP_append, ih, List.countP_cons]
    by_cases h : (microBatch fp16 K n).globalStepInc <;> simp [h, Nat.add_assoc]

theorem microBatch_globalStepInc (fp16 : Bool) (K i : ℕ) :
    (microBatch fp16 K i).globalStepInc = (microBatch fp16 K i).optimizerStep := by
  unfold microBatch
  by_cases h : (i + 1) % K == 0 <;> simp [h]

/-- C4: the global optimizer-step counter is incremented exactly once in the
fire branch and never on an accumulate-only micro-batch, is monotonically
non-decreasing, and grows by exactly `⌊N / K⌋` over an epoch of `N`
micro-batches. -/
theorem global_step_per_logical_step (fp16 : Bool) (K g0 N : ℕ) (hK : 1 ≤ K) :
    (∀ i, (microBatch fp16 K i).globalStepInc = (microBatch fp16 K i).optimizerStep)
      ∧ (∀ i, (microBatch fp16 K i).optimizerStep = false →
          (microBatch fp16 K i).globalStepInc = false)
      ∧ g0 ≤ globalStepAfter fp16 K g0 N
      ∧ globalStepAfter fp16 K g0 N = g0 + N / K := by
  have hcount : globalStepAfter fp16 K g0 N = g0 + N / K := by
    rw [globalStepAfter_eq_add_count]
    congr 1
    calc (List.range N).countP (fun i => (microBatch fp16 K i).globalStepInc)
        = (List.range N).countP (fun i => (i + 1) % K == 0) := by
          apply List.countP_congr
          intro i _
          rw [microBatch_globalStepInc, microBatch_optimizerStep]
      _ = N / K := countP_range_succ_mod K N
  refine ⟨fun i => microBatch_globalStepInc fp16 K i, ?_, ?_, hcount⟩
  · intro i h
    rw [microBatch_globalStepInc, h]
  · rw [hcount]
    exact Nat.le_add_right _ _

theorem global_step_per_logical_step_witness :
    1 ≤ 2
      ∧ ((∀ i, (microBatch true 2 i).globalStepInc = (microBatch true 2 i).optimizerStep)
          ∧ (∀ i, (microBatch true 2 i).optimizerStep = false →
              (microBatch true 2 i).globalStepInc = false)
          ∧ 5 ≤ globalStepAfter true 2 5 9
          ∧ globalStepAfter true 2 5 9 = 5 + 9 / 2) :=
  ⟨by decide, global_step_per_logical_step true 2 5 9 (by decide)⟩

/-- C3 counterexample: with full precision (`fp16 = false`) and `K = 1`,
micro-batch `0` fires but the loop does not overwrite the optimizer's
learning rate (the overwrite sits under `if args.fp16:`), so the overwrite
does not happen "regardless of which precision mode is configured". -/
theorem lr_overwrite_not_in_full_precision :
    (microBatch false 1 0).optimizerStep = true
      ∧ (microBatch false 1 0).lrSet = false := by
  decide

/-- C3 amended: in reduced precision (`fp16 = true`) the loop overwrites the
optimizer's per-parameter-group learning rate on exactly the fire
micro-batches; in full precision it never overwrites it (BertAdam manages
the rate internally). -/
theorem lr_overwrite_iff_fire_and_fp16 (K i : ℕ) :
    (microBatch true K i).lrSet = (microBatch true K i).optimizerStep
      ∧ (microBatch false K i).lrSet = false := by
  unfold microBatch
  by_cases h : (i + 1) % K == 0 <;> simp [h]

/-- Loss actually handed to the backward pass (`run_vqa.py` lines 444–449):
`if args.gradient_accumulation_steps > 1: loss = loss / args.gradient_accumulation_steps`,
then `optimizer.backward(loss)` / `loss.backward()`. -/
def backwardLoss (K : ℕ) (loss : ℚ) : ℚ :=
  if K > 1 then loss / (K : ℚ) else loss

/-- C5: for every accumulation factor `K ≥ 1` the loss passed to the
backward pass equals the per-micro-batch loss divided by `K`; for `K = 1`
that is the computed loss unchanged. -/
theorem backwardLoss_eq_div (K : ℕ) (loss : ℚ) (hK : 1 ≤ K) :
    backwardLoss K loss = loss / (K : ℚ)
      ∧ (K = 1 → backwardLoss K loss = loss) := by
  constructor
  · unfold backwardLoss
    by_cases h : K > 1
    · simp [h]
    · have h1 : K = 1 := by omega
      simp [h1]
  · intro h1
    simp [backwardLoss, h1]

theorem backwardLoss_eq_div_witness :
    1 ≤ 4
      ∧ (backwardLoss 4 6 = 6 / (4 : ℚ) ∧ (4 = 1 → backwardLoss 4 6 = 6)) :=
  ⟨by decide, backwardLoss_eq_div 4 6 (by decide)⟩

/-- Python's `bisect.bisect(a, x)` (i.e. `bisect_right`) on a sorted list:
the insertion index, equal to the number of elements `≤ x`. -/
def bisect (a : List ℚ) (x : ℚ) : ℕ :=
  a.countP (fun y => y ≤ x)

/-- `lr_lambda_update` (`run_vqa.py` lines 560–570), translated verbatim.
Note that the source calls `bisect([], i_iter)` on the empty list — the
local `lr_steps` list is defined but never used. -/
def lr_lambda_update (i_iter : ℚ) : ℚ :=
  let warmup_iterations : ℚ := 1000
  let warmup_factor : ℚ := 1 / 5
  let lr_ratio : ℚ := 1 / 10
  let lr_steps : List ℚ := [15000, 18000, 20000, 21000]
  if i_iter ≤ warmup_iterations then
    let alpha : ℚ := i_iter / warmup_iterations
    warmup_factor * (1 - alpha) + alpha
  else
    let idx : ℕ := bisect [] i_iter
    lr_ratio ^ idx

/-- C2: `lr_lambda_update` evaluated at the iterations named by the claim.
Because the decay exponent is computed by `bisect([], i_iter)` instead of
`bisect(lr_steps, i_iter)`, the post-warmup multiplier is always `1`, so
the schedule returns `1` at iterations `15000`, `19000` and `21000` where
the claim (and the evidently intended `lr_steps` milestones) require
`1/10`, `1/10` and `1/10000`.  The value at `14999` happens to agree with
the claim. -/
theorem lr_lambda_update_ignores_milestones :
    lr_lambda_update 14999 = 1
      ∧ lr_lambda_update 15000 = 1
      ∧ lr_lambda_update 19000 = 1
      ∧ lr_lambda_update 21000 = 1
      ∧ (∀ i : ℚ, 1000 < i → lr_lambda_update i = 1) := by
  refine ⟨?_, ?_, ?_, ?_, ?_⟩
  · norm_num [lr_lambda_update, bisect]
  · norm_num [lr_lambda_update, bisect]
  · norm_num [lr_lambda_update, bisect]
  · norm_num [lr_lambda_update, bisect]
  · intro i hi
    have h : ¬ i ≤ (1000 : ℚ) := not_le.mpr hi
    simp [lr_lambda_update, bisect, h]

/-- Elementwise binary cross-entropy with logits, as computed by
`F.binary_cross_entropy_with_logits`:
`max(x, 0) - x * z + log1p(exp(-|x|))`.  The transcendental tail is the
parameter `lg`, standing for `fun t => log (1 + exp t)`. -/
def bceElem (lg : ℚ → ℚ) (x z : ℚ) : ℚ :=
  max x 0 - x * z + lg (-|x|)

/-- The elementwise losses of two matrices, flattened in row-major order. -/
def elemLosses (lg : ℚ → ℚ) (X Z : List (List ℚ)) : List ℚ :=
  (List.zipWith (fun xr zr => List.zipWith (bceElem lg) xr zr) X Z).flatten

/-- `F.binary_cross_entropy_with_logits(logits, labels)` with the default
reduction `"mean"`: the mean of the elementwise losses over all elements. -/
def binary_cross_entropy_with_logits (lg : ℚ → ℚ) (X Z : List (List ℚ)) : ℚ :=
  (elemLosses lg X Z).sum / ((elemLosses lg X Z).length : ℚ)

/-- `labels.size(1)`: the width of the (rectangular) label matrix. -/
def numClasses (Z : List (List ℚ)) : ℕ :=
  Z.headI.length

/-- `instance_bce_with_logits` (`run_vqa.py` lines 547–551):
`loss = F.binary_cross_entropy_with_logits(logits, labels); loss *= labels.size(1)`. -/
def instance_bce_with_logits (lg : ℚ → ℚ) (X Z : List (List ℚ)) : ℚ :=
  binary_cross_entropy_with_logits lg X Z * (numClasses Z : ℚ)

/-- `m` is an `R × C` matrix. -/
def isMatrix (R C : ℕ) (m : List (List ℚ)) : Prop :=
  m.length = R ∧ ∀ row ∈ m, row.length = C

instance (R C : ℕ) (m : List (List ℚ)) : Decidable (isMatrix R C m) := by
  unfold isMatrix
  exact inferInstance

theorem elemLosses_length (lg : ℚ → ℚ) (X Z : List (List ℚ)) (C : ℕ)
    (hX : ∀ r ∈ X, r.length = C) (hZ : ∀ r ∈ Z, r.length = C)
    (hlen : X.length = Z.length) :
    (elemLosses lg X Z).length = X.length * C := by
  induction X generalizing Z with
  | nil => simp [elemLosses]
  | cons x xs ih =>
    cases Z with
    | nil => simp at hlen
    | cons z zs =>
      have hx : x.length = C := hX x (List.mem_cons_self x xs)
      have hz : z.length = C := hZ z (List.mem_cons_self z zs)
      have hrec := ih zs (fun r hr => hX r (List.mem_cons_of_mem x hr))
        (fun r hr => hZ r (List.mem_cons_of_mem z hr))
        (by simpa using hlen)
      simp only [elemLosses, List.zipWith_cons_cons, List.flatten_cons,
        List.length_append, List.length_zipWith, hx, hz, Nat.min_self,
        List.length_cons]
      rw [show ((List.zipWith (fun xr zr => List.zipWith (bceElem lg) xr zr) xs zs).flatten).length
            = xs.length * C from hrec]
      ring

/-- C6: for matching `R × C` logits and label matrices (`R, C > 0`), the
training loss `instance_bce_with_logits` equals the mean elementwise binary
cross-entropy with logits over all `R * C` elements multiplied by the number
of label classes `C` (the width of the label matrix). -/
theorem instance_bce_eq_mean_times_classes (lg : ℚ → ℚ) (X Z : List (List ℚ))
    (R C : ℕ) (hR : 0 < R) (hC : 0 < C) (hX : isMatrix R C X) (hZ : isMatrix R C Z) :
    instance_bce_with_logits lg X Z
      = ((elemLosses lg X Z).sum / ((R * C : ℕ) : ℚ)) * (C : ℚ) := by
  obtain ⟨hXlen, hXrow⟩ := hX
  obtain ⟨hZlen, hZrow⟩ := hZ
  have hlen : (elemLosses lg X Z).length = R * C := by
    rw [elemLosses_length lg X Z C hXrow hZrow (by rw [hXlen, hZlen]), hXlen]
  have hcls : numClasses Z = C := by
    cases Z with
    | nil => simp [hR.ne'] at hZlen; omega
    | cons z zs => exact hZrow z (List.mem_cons_self z zs)
  unfold instance_bce_with_logits binary_cross_entropy_with_logits
  rw [hlen, hcls]

theorem instance_bce_eq_mean_times_classes_witness :
    (0 : ℕ) < 2 ∧ (0 : ℕ) < 2
      ∧ isMatrix 2 2 [[1, 2], [3, 4]] ∧ isMatrix 2 2 [[0, 1], [1, 0]]
      ∧ instance_bce_with_logits (fun _ => 0) [[1, 2], [3, 4]] [[0, 1], [1, 0]]
          = ((elemLosses (fun _ => 0) [[1, 2], [3, 4]] [[0, 1], [1, 0]]).sum
              / ((2 * 2 : ℕ) : ℚ)) * (2 : ℚ) :=
  ⟨by decide, by decide, by decide, by decide,
    instance_bce_eq_mean_times_classes (fun _ => 0) [[1, 2], [3, 4]] [[0, 1], [1, 0]]
      2 2 (by decide) (by decide) (by decide) (by decide)⟩

/-- Helper for `torch.max(logits, 1)[1]`: index of the first maximal element,
scanning left to right with the running best value and index. -/
def argmaxAux (best : ℚ) (bestIdx cur : ℕ) : List ℚ → ℕ
  | [] => bestIdx
  | y :: ys =>
      if best < y then argmaxAux y cur (cur + 1) ys
      else argmaxAux best bestIdx (cur + 1) ys

/-- `torch.max(row, dim)[1]` for one row: the index of the (first) maximal
element; `0` on an empty row. -/
def argmaxIdx : List ℚ → ℕ
  | [] => 0
  | x :: xs => argmaxAux x 0 1 xs

/-- A row of `torch.zeros(n)`. -/
def zerosRow : ℕ → List ℚ
  | 0 => []
  | n + 1 => 0 :: zerosRow n

/-- `row.scatter_(i, 1)`: write `1` at position `i` of `row` (out-of-range
indices leave the row unchanged, matching nothing being written). -/
def scatterOne : List ℚ → ℕ → List ℚ
  | [], _ => []
  | _ :: xs, 0 => 1 :: xs
  | x :: xs, i + 1 => x :: scatterOne xs i

/-- `one_hots` row of `compute_score_with_logits`: zeros of the labels'
width with a `1` scattered at the argmax of the logits row. -/
def oneHot (n i : ℕ) : List ℚ :=
  scatterOne (zerosRow n) i

/-- One row of `compute_score_with_logits`: the elementwise product
`one_hots * labels`. -/
def scoreRow (lr tr : List ℚ) : List ℚ :=
  List.zipWith (fun a b => a * b) (oneHot tr.length (argmaxIdx lr)) tr

/-- `compute_score_with_logits` (`run_vqa.py` lines 553–558): per example,
one-hot-encode `torch.max(logits, 1)[1]` into the labels' shape and multiply
elementwise with the labels. -/
def compute_score_with_logits (logits labels : List (List ℚ)) : List (List ℚ) :=
  List.zipWith scoreRow logits labels

theorem zerosRow_zip_sum (tr : List ℚ) (n : ℕ) :
    (List.zipWith (fun a b => a * b) (zerosRow n) tr).sum = 0 := by
  induction tr generalizing n with
  | nil => simp
  | cons t ts ih =>
    cases n with
    | zero => simp [zerosRow]
    | succ m => simp [zerosRow, ih]

theorem oneHot_zip_sum (tr : List ℚ) (i : ℕ) (h : i < tr.length) :
    (List.zipWith (fun a b => a * b) (oneHot tr.length i) tr).sum = tr.get ⟨i, h⟩ := by
  induction tr generalizing i with
  | nil => simp at h
  | cons t ts ih =>
    cases i with
    | zero =>
      simp [oneHot, zerosRow, scatterOne, zerosRow_zip_sum]
    | succ j =>
      have hj : j < ts.length := by simpa using h
      simp only [oneHot, List.length_cons, zerosRow, scatterOne,
        List.zipWith_cons_cons, List.sum_cons, zero_mul, zero_add]
      exact ih j hj

theorem scoreRow_sum (lr tr : List ℚ) (h : argmaxIdx lr < tr.length) :
    (scoreRow lr tr).sum = tr.get ⟨argmaxIdx lr, h⟩ :=
  oneHot_zip_sum tr (argmaxIdx lr) h

/-- C7: the per-example match score of `compute_score_with_logits` — the sum
of the one-hot/label products in that example's row — equals the target
weight at the argmax of the predicted logits; in particular for target
weights `[0,1,0]` the score is `1` for logits `[0.1, 0.9, 0.2]` and `0`
for logits `[0.9, 0.1, 0.2]`. -/
theorem score_is_label_at_argmax (P T : List (List ℚ)) (r : ℕ)
    (hP : r < P.length) (hT : r < T.length)
    (hw : argmaxIdx (P.get ⟨r, hP⟩) < (T.get ⟨r, hT⟩).length) :
    (((compute_score_with_logits P T).get
        ⟨r, by rw [compute_score_with_logits, List.length_zipWith]; omega⟩).sum
      = (T.get ⟨r, hT⟩).get ⟨argmaxIdx (P.get ⟨r, hP⟩), hw⟩)
      ∧ (compute_score_with_logits [[1/10, 9/10, 2/10]] [[0, 1, 0]]).flatten.sum = 1
      ∧ (compute_score_with_logits [[9/10, 1/10, 2/10]] [[0, 1, 0]]).flatten.sum = 0 := by
  refine ⟨?_,
    by norm_num [compute_score_with_logits, scoreRow, oneHot, zerosRow,
      scatterOne, argmaxIdx, argmaxAux],
    by norm_num [compute_score_with_logits, scoreRow, oneHot, zerosRow,
      scatterOne, argmaxIdx, argmaxAux]⟩
  have hz : (compute_score_with_logits P T).get
      ⟨r, by rw [compute_score_with_logits, List.length_zipWith]; omega⟩
      = scoreRow (P.get ⟨r, hP⟩) (T.get ⟨r, hT⟩) := by
    simp [compute_score_with_logits, List.getElem_zipWith]
  rw [hz]
  exact scoreRow_sum _ _ hw

theorem score_is_label_at_argmax_witness :
    0 < ([[1/10, 9/10, 2/10]] : List (List ℚ)).length
      ∧ 0 < ([[0, 1, 0]] : List (List ℚ)).length
      ∧ argmaxIdx [1/10, 9/10, 2/10] < ([0, 1, 0] : List ℚ).length
      ∧ ((((compute_score_with_logits [[1/10, 9/10, 2/10]] [[0, 1, 0]]).get
            ⟨0, by decide⟩).sum
          = (([0, 1, 0] : List ℚ).get ⟨argmaxIdx [1/10, 9/10, 2/10],
              by norm_num [argmaxIdx, argmaxAux]⟩))
          ∧ (compute_score_with_logits [[1/10, 9/10, 2/10]] [[0, 1, 0]]).flatten.sum = 1
          ∧ (compute_score_with_logits [[9/10, 1/10, 2/10]] [[0, 1, 0]]).flatten.sum = 0) :=
  ⟨by decide, by decide, by norm_num [argmaxIdx, argmaxAux],
    score_is_label_at_argmax [[1/10, 9/10, 2/10]] [[0, 1, 0]] 0
      (by decide) (by decide) (by norm_num [argmaxIdx, argmaxAux])⟩

/-- One batch of the held-out evaluation set, with the model's predictions
already computed (the model is an external collaborator of the loop). -/
structure EvalBatch where
  preds : List (List ℚ)
  targets : List (List ℚ)

/-- `target.max(1)[0]` for one row: the maximum element. -/
def rowMax : List ℚ → ℚ
  | [] => 0
  | x :: xs => xs.foldl max x

/-- `.sum()` over a matrix. -/
def matrixSum (m : List (List ℚ)) : ℚ :=
  (m.map List.sum).sum

/-- `with torch.no_grad():` — runs its body with gradient tracking turned
off; the body receives the gradient-tracking state in force. -/
def withNoGrad {α : Type} (body : Bool → α) : α :=
  body false

/-- The forward pass of one evaluation iteration (`run_vqa.py` line 536):
`pred = model(question, features, ...)` is evaluated inside
`with torch.no_grad():`.  Returns the predictions together with the
gradient-tracking state under which they were computed. -/
def evalForward (b : EvalBatch) : List (List ℚ) × Bool :=
  withNoGrad (fun gradEnabled => (b.preds, gradEnabled))

/-- One iteration of the `for batch in dataloader` loop of `evaluate`
(`run_vqa.py` lines 533–541): the no-grad forward pass, then
`score += compute_score_with_logits(pred, target).sum()` and
`upper_bound += (target.max(1)[0]).sum()`. -/
def evalStep (acc : ℚ × ℚ) (b : EvalBatch) : ℚ × ℚ :=
  (acc.1 + matrixSum (compute_score_with_logits (evalForward b).1 b.targets),
   acc.2 + (b.targets.map rowMax).sum)

/-- `evaluate` (`run_vqa.py` lines 529–545): accumulate over the batches,
then divide both accumulators by `len(dataloader.dataset)`. -/
def evaluate (batches : List EvalBatch) (datasetLen : ℕ) : ℚ × ℚ :=
  let acc := batches.foldl evalStep (0, 0)
  (acc.1 / (datasetLen : ℚ), acc.2 / (datasetLen : ℚ))

theorem foldl_evalStep (batches : List EvalBatch) (a b : ℚ) :
    batches.foldl evalStep (a, b)
      = (a + (batches.map
            (fun bt => matrixSum (compute_score_with_logits bt.preds bt.targets))).sum,
         b + (batches.map (fun bt => (bt.targets.map rowMax).sum)).sum) := by
  induction batches generalizing a b with
  | nil => simp
  | cons x xs ih => simp [evalStep, evalForward, withNoGrad, ih, add_assoc]

/-- C8: when `N` is the number of examples of the evaluation set, the first
component returned by `evaluate` is the mean per-example match score and the
second component (the upper bound) is the sum over all evaluation examples
of that example's maximum target-label weight, divided by `N`; and the
forward pass of every evaluation iteration runs with gradient tracking
disabled (`with torch.no_grad():`). -/
theorem evaluate_components (batches : List EvalBatch) (N : ℕ)
    (hN : N = (batches.map (fun bt => bt.targets.length)).sum) :
    (evaluate batches N).1
        = ((batches.map
            (fun bt => (compute_score_with_logits bt.preds bt.targets).map List.sum)).flatten.sum)
          / (N : ℚ)
      ∧ (evaluate batches N).2
        = ((batches.map (fun bt => bt.targets.map rowMax)).flatten.sum) / (N : ℚ)
      ∧ ∀ b : EvalBatch, (evalForward b).2 = false := by
  refine ⟨?_, ?_, fun b => rfl⟩
  · unfold evaluate
    rw [foldl_evalStep]
    simp only [zero_add]
    congr 1
    rw [List.sum_flatten, List.map_map]
    rfl
  · unfold evaluate
    rw [foldl_evalStep]
    simp only [zero_add]
    congr 1
    rw [List.sum_flatten, List.map_map]
    rfl

theorem evaluate_components_witness :
    (2 : ℕ) = (([⟨[[1, 0], [0, 2]], [[0, 1], [3, 0]]⟩] :
        List EvalBatch).map (fun bt => bt.targets.length)).sum
      ∧ ((evaluate [⟨[[1, 0], [0, 2]], [[0, 1], [3, 0]]⟩] 2).1
          = (([⟨[[1, 0], [0, 2]], [[0, 1], [3, 0]]⟩] : List EvalBatch).map
              (fun bt => (compute_score_with_logits bt.preds bt.targets).map List.sum)).flatten.sum
            / ((2 : ℕ) : ℚ)
        ∧ (evaluate [⟨[[1, 0], [0, 2]], [[0, 1], [3, 0]]⟩] 2).2
          = (([⟨[[1, 0], [0, 2]], [[0, 1], [3, 0]]⟩] : List EvalBatch).map
              (fun bt => bt.targets.map rowMax)).flatten.sum / ((2 : ℕ) : ℚ)
        ∧ ∀ b : EvalBatch, (evalForward b).2 = false) :=
  ⟨by decide, evaluate_components [⟨[[1, 0], [0, 2]], [[0, 1], [3, 0]]⟩] 2 (by decide)⟩

/-- One straight-line statement of `main`, abstracted to the Python names it
reads and the names it binds in the function's scope. -/
structure Stmt where
  label : String
  refs : List String
  binds : List String
  deriving Repr, DecidableEq

/-- Errors `main` can raise during startup. -/
inductive MainError where
  | valueErrorAccum
  | valueErrorNoTrain
  | assertFalse
  | nameError (n : String) (env : List String)
  deriving Repr, DecidableEq

/-- Names in scope when the `if args.do_train:` block begins (`run_vqa.py`
lines 182–251): the parsed arguments, the device configuration, the model
config and the save path. -/
def initialEnv : List String :=
  ["args", "timeStamp", "savePath", "config", "device", "n_gpu",
   "num_train_optimization_steps"]

/-- Statements of the `do_train` block before the dataset dispatch
(`run_vqa.py` lines 254–261). -/
def preDatasetStmts : List Stmt :=
  [⟨"viz = TBlogger(logs + timeStamp)", ["timeStamp"], ["viz"]⟩,
   ⟨"tokenizer = BertTokenizer.from_pretrained(args.bert_model, ...)",
     ["args"], ["tokenizer"]⟩,
   ⟨"image_features_reader = ImageFeaturesH5Reader(args.features_h5path, True)",
     ["args"], ["image_features_reader"]⟩]

/-- Statements from the dataset construction to the training loop
(`run_vqa.py` lines 264–419).  Both the `train` and the `trainval` branch
construct `train_dset` from `image_features_reader_train` and `eval_dset`
from `image_features_reader`. -/
def datasetStmts : List Stmt :=
  [⟨"train_dset = VQAClassificationDataset(split, image_features_reader_train, tokenizer)",
     ["image_features_reader_train", "tokenizer"], ["train_dset"]⟩,
   ⟨"eval_dset = VQAClassificationDataset(eval_split, image_features_reader, tokenizer)",
     ["image_features_reader", "tokenizer"], ["eval_dset"]⟩,
   ⟨"num_train_optimization_steps = ...; num_labels = train_dset.num_ans_candidates",
     ["train_dset", "args"], ["num_labels"]⟩,
   ⟨"model = MultiModalBertForVQA.from_pretrained(..., num_labels)",
     ["num_labels", "config"], ["model"]⟩,
   ⟨"optimizer = BertAdam(optimizer_grouped_parameters, ...)",
     ["model", "args", "num_train_optimization_steps"], ["optimizer"]⟩,
   ⟨"training loop over epochs and micro-batches",
     ["model", "optimizer", "train_dset", "eval_dset"], ["global_step"]⟩]

/-- Run statements in order; a reference to a name not in scope stops
execution with that name and the scope at that point (Python's `NameError`). -/
def execStmts : List String → List Stmt → Except (String × List String) (List String)
  | env, [] => .ok env
  | env, s :: rest =>
    match s.refs.find? (fun n => !env.contains n) with
    | some n => .error (n, env)
    | none => execStmts (env ++ s.binds) rest

/-- The startup sequence of `main` in source order (`run_vqa.py`): the
accumulation-factor check (line 224), the `do_train` check (line 239), the
statements before the dataset dispatch, the split dispatch with its
`assert False` default (line 275), and the remaining statements through to
the training loop. -/
def runMain (gradAccum : ℤ) (do_train : Bool) (split : String) :
    Except MainError (List String) :=
  if gradAccum < 1 then .error .valueErrorAccum
  else if do_train = false then .error .valueErrorNoTrain
  else
    match execStmts initialEnv preDatasetStmts with
    | .error e => .error (.nameError e.1 e.2)
    | .ok env =>
      if split = "train" ∨ split = "trainval" then
        match execStmts env datasetStmts with
        | .error e => .error (.nameError e.1 e.2)
        | .ok env2 => .ok env2
      else .error .assertFalse

theorem execStmts_pre :
    execStmts initialEnv preDatasetStmts
      = .ok (initialEnv ++ ["viz"] ++ ["tokenizer"] ++ ["image_features_reader"]) := by
  rfl

theorem execStmts_dataset :
    execStmts (initialEnv ++ ["viz"] ++ ["tokenizer"] ++ ["image_features_reader"])
        datasetStmts
      = .error ("image_features_reader_train",
          initialEnv ++ ["viz"] ++ ["tokenizer"] ++ ["image_features_reader"]) := by
  rfl

/-- C9: `main` raises the accumulation `ValueError` exactly when the
configured accumulation-step count is `< 1`; the error pre-empts everything
after it (in particular the training loop never starts), and for counts
`≥ 1` the check passes. -/
theorem accum_check_iff (k : ℤ) (dt : Bool) (split : String) :
    runMain k dt split = .error .valueErrorAccum ↔ k < 1 := by
  constructor
  · intro h
    by_contra hk
    rw [runMain, if_neg hk] at h
    by_cases hdt : dt = false
    · rw [if_pos hdt] at h
      exact absurd h (by simp)
    · rw [if_neg hdt] at h
      simp only [execStmts_pre] at h
      by_cases hs : split = "train" ∨ split = "trainval"
      · rw [if_pos hs] at h
        simp only [execStmts_dataset] at h
        exact absurd h (by simp)
      · rw [if_neg hs] at h
        exact absurd h (by simp)
  · intro hk
    rw [runMain, if_pos hk]

/-- C10: with `do_train` set and split `train` or `trainval` (and a valid
accumulation factor, so the startup checks pass), the run stops with a
`NameError` on `image_features_reader_train` during dataset construction:
that name is bound neither in the initial scope nor by any statement (only
`image_features_reader` is), and at the point of failure neither the model
nor the optimizer has been constructed and the training loop has not run. -/
theorem dataset_load_name_error (k : ℤ) (split : String)
    (hk : 1 ≤ k) (hsplit : split = "train" ∨ split = "trainval") :
    ∃ env : List String,
      runMain k true split = .error (.nameError "image_features_reader_train" env)
        ∧ "model" ∉ env ∧ "optimizer" ∉ env ∧ "global_step" ∉ env
        ∧ "image_features_reader" ∈ env
        ∧ "image_features_reader_train" ∉ initialEnv
        ∧ ∀ s ∈ preDatasetStmts ++ datasetStmts,
            "image_features_reader_train" ∉ s.binds := by
  refine ⟨initialEnv ++ ["viz"] ++ ["tokenizer"] ++ ["image_features_reader"],
    ?_, by decide, by decide, by decide, by decide, by decide, by decide⟩
  rw [runMain, if_neg (by omega), if_neg (by simp)]
  simp only [execStmts_pre]
  rw [if_pos hsplit]
  simp only [execStmts_dataset]

theorem dataset_load_name_error_witness :
    (1 : ℤ) ≤ 1
      ∧ ("train" = "train" ∨ "train" = "trainval")
      ∧ ∃ env : List String,
          runMain 1 true "train" = .error (.nameError "image_features_reader_train" env)
            ∧ "model" ∉ env ∧ "optimizer" ∉ env ∧ "global_step" ∉ env
            ∧ "image_features_reader" ∈ env
            ∧ "image_features_reader_train" ∉ initialEnv
            ∧ ∀ s ∈ preDatasetStmts ++ datasetStmts,
                "image_features_reader_train" ∉ s.binds :=
  ⟨by decide, Or.inl rfl,
    dataset_load_name_error 1 "train" (by decide) (Or.inl rfl)⟩
